import Mathlib

/-!
A verification development for the RDFS on-disk format core
(`rdfs/src/core/*.rs`, `rdfs/src/file_system.rs`, `rdfs/src/utils.rs`).

Modelling conventions:
* Byte buffers are `List Nat`; a byte produced by the code is always `< 256`.
* `u64`/`usize` arithmetic is modelled over `Nat` with an explicit `% 2^64`
  wherever the Rust code can wrap (release-mode wrap-around semantics).
* Fallible Rust functions returning `anyhow::Result` are modelled with
  `Except AnyError` when they cannot abort, and with `RunResult` when some
  input makes the Rust code abort (slice index out of bounds); the abort is
  modelled by the `RunResult.panicked` outcome.
* The four quantities that `SuperBlock::new_shared` computes through `f64`
  arithmetic (`total_blocks` before the `* 8` correction, `client_block_size`,
  `max_content_pointers`, `max_linked_content_pointers`) are taken as
  parameters of the model; every theorem about the shared geometry holds for
  all values of those parameters, hence for the values the floating-point
  computation produces.
-/

set_option maxRecDepth 100000

/-- Decidable equality for `Except` results. -/
instance {e a : Type} [DecidableEq e] [DecidableEq a] : DecidableEq (Except e a) := fun x y =>
  match x, y with
  | .ok v, .ok w => if h : v = w then .isTrue (by rw [h]) else .isFalse (by simp [h])
  | .error v, .error w => if h : v = w then .isTrue (by rw [h]) else .isFalse (by simp [h])
  | .ok _, .error _ => .isFalse (by simp)
  | .error _, .ok _ => .isFalse (by simp)

/-- The `u64` / `usize` modulus, `2 ^ 64`. -/
abbrev M64 : Nat := 18446744073709551616

/-- Wrap-around (release-mode) subtraction on `u64`/`usize`, valid for a
subtrahend at most `2 ^ 64`. -/
def usizeSub (a b : Nat) : Nat := (a + M64 - b) % M64

/-- Little-endian encoding of `v` on `n` bytes, as `<int>::to_le_bytes`. -/
def leBytes : Nat → Nat → List Nat
  | 0, _ => []
  | n + 1, v => v % 256 :: leBytes n (v / 256)

/-- Little-endian decoding of a byte list, as `<int>::from_le_bytes`. -/
def fromLE : List Nat → Nat
  | [] => 0
  | b :: rest => b + 256 * fromLE rest

/-- The Rust slice `&data[i..j]` (in-bounds case). -/
def byteSlice (l : List Nat) (i j : Nat) : List Nat := (l.drop i).take (j - i)

/-- `Vec::resize(n, 0)`: truncate or zero-pad to length `n`. -/
def resize (l : List Nat) (n : Nat) : List Nat :=
  l.take n ++ List.replicate (n - l.length) 0

/-- The error enum of `rdfs_errors.rs`. -/
inductive RDFSError where
  | InvalidSuperBlockLength
  | InvalidMagicWord
  | InvalidAddressBlockLength
  | InvalidEncodedAddressBlockLength
  | InvalidBitmapsBlockLength
  | InvalidEncodedBitmapsBlockLength
  | InvalidDataBlockLength
  | InvalidEncodedDataBlockLength
  | InvalidInodeBlockLength
  | InvalidEncodedInodeBlockLength
  | NoBitmapsPrivateRDFS
  | InvalidPointerAlignment
  | PointerOutOfRange
  deriving DecidableEq, Repr

/-- The `anyhow::Error` channel: either a structured `RDFSError`, the ad-hoc
string error of `FileSystemType::from_bytes` (wrong input length), or a file
I/O error. -/
inductive AnyError where
  | rdfs (e : RDFSError)
  | invalidFsTypeLength
  | io
  deriving DecidableEq, Repr

/-- Outcome of running a fallible Rust function: a value, an error returned
through `Result`, or an abort (index out of bounds / arithmetic overflow
panic). -/
inductive RunResult (α : Type) where
  | ok (a : α)
  | err (e : AnyError)
  | panicked
  deriving DecidableEq, Repr

/-- `FS_MAGIC_SHARED = u64::from_le_bytes(*b"RDFS-SHR")`. -/
def FS_MAGIC_SHARED : Nat := fromLE [82, 68, 70, 83, 45, 83, 72, 82]

/-- `FS_MAGIC_PRIVATE = u64::from_le_bytes(*b"RDFS-PRV")`. -/
def FS_MAGIC_PRIVATE : Nat := fromLE [82, 68, 70, 83, 45, 80, 82, 86]

/-- The `FileSystemType` enum of `super_block.rs`. -/
inductive FileSystemType where
  | Shared
  | Private
  deriving DecidableEq, Repr

/-- `FileSystemType::from_bytes`: requires 8 bytes, decodes the magic word. -/
def FileSystemType.from_bytes (data : List Nat) : Except AnyError FileSystemType :=
  if data.length ≠ 8 then .error .invalidFsTypeLength
  else
    let value := fromLE data
    if value = FS_MAGIC_SHARED then .ok .Shared
    else if value = FS_MAGIC_PRIVATE then .ok .Private
    else .error (.rdfs .InvalidMagicWord)

/-- The `SuperBlock` struct of `super_block.rs` (integer fields as `Nat`
holding `u64` values, key material as byte lists). -/
structure SuperBlock where
  magic : FileSystemType
  owner : List Nat
  program_id : List Nat
  storage : Nat
  redundancy : Nat
  nodes : Nat
  block_size : Nat
  total_blocks : Nat
  client_block_size : Nat
  node_storage : Nat
  nodes_address_pointer : Nat
  bitmaps_pointer : Nat
  data_pointer : Nat
  inode_pointer : Nat
  nodes_address_size : Nat
  bitmaps_size : Nat
  max_content_pointers : Nat
  max_linked_content_pointers : Nat
  signature : List Nat
  deriving DecidableEq, Repr

/-- `SuperBlock::new_shared`. The arguments `total_blocks_f`,
`client_block_size_f`, `max_content_pointers_f` and
`max_linked_content_pointers_f` stand for the values of the four `f64`
computations of the source (`ceil(total_blocks / 8.0) as u64` before the
`* 8` correction, `client_block_size`, and the two
`floor(... / CONTENT_SIZE) as u64` capacities); everything after those
computations is integer arithmetic and is modelled exactly, with `u64`
wrap-around made explicit. -/
def SuperBlock.new_shared (owner program_id : List Nat)
    (storage redundancy nodes block_size : Nat)
    (total_blocks_f client_block_size_f
     max_content_pointers_f max_linked_content_pointers_f : Nat) : SuperBlock :=
  let total_blocks := total_blocks_f * 8 % M64
  let node_storage :=
    (256 + 72 + 32 * nodes + 96 + total_blocks / 8 + total_blocks * block_size) % M64
  let nodes_address_size := (72 + 32 * nodes) % M64
  let bitmaps_size := (96 + total_blocks / 8) % M64
  let nodes_address_pointer := 256
  let bitmaps_pointer := (nodes_address_pointer + nodes_address_size) % M64
  let data_pointer := (bitmaps_pointer + bitmaps_size) % M64
  let inode_pointer := (data_pointer + block_size * usizeSub total_blocks 1 % M64) % M64
  { magic := .Shared, owner, program_id, storage, redundancy, nodes, block_size,
    total_blocks,
    client_block_size := client_block_size_f,
    node_storage, nodes_address_pointer, bitmaps_pointer, data_pointer,
    inode_pointer, nodes_address_size, bitmaps_size,
    max_content_pointers := max_content_pointers_f,
    max_linked_content_pointers := max_linked_content_pointers_f,
    signature := List.replicate 64 0 }

/-- `SuperBlock::from_bytes`: length must be exactly 256, magic must parse;
all other fields are decoded without validation. -/
def SuperBlock.from_bytes (data : List Nat) : Except AnyError SuperBlock :=
  if data.length ≠ 256 then .error (.rdfs .InvalidSuperBlockLength)
  else
    match FileSystemType.from_bytes (byteSlice data 0 8) with
    | .error e => .error e
    | .ok magic =>
      .ok { magic,
            owner := byteSlice data 8 40,
            program_id := byteSlice data 40 72,
            storage := fromLE (byteSlice data 72 80),
            redundancy := fromLE (byteSlice data 80 88),
            nodes := fromLE (byteSlice data 88 96),
            block_size := fromLE (byteSlice data 96 104),
            total_blocks := fromLE (byteSlice data 104 112),
            client_block_size := fromLE (byteSlice data 112 120),
            node_storage := fromLE (byteSlice data 120 128),
            nodes_address_pointer := fromLE (byteSlice data 128 136),
            bitmaps_pointer := fromLE (byteSlice data 136 144),
            data_pointer := fromLE (byteSlice data 144 152),
            inode_pointer := fromLE (byteSlice data 152 160),
            nodes_address_size := fromLE (byteSlice data 160 168),
            bitmaps_size := fromLE (byteSlice data 168 176),
            max_content_pointers := fromLE (byteSlice data 176 184),
            max_linked_content_pointers := fromLE (byteSlice data 184 192),
            signature := byteSlice data 192 256 }

/-- Distributing `% 2^64` over a four-summand `u64` expression. -/
theorem mod_add_distrib4 (a x y z : Nat) :
    (a + x + y + z) % M64 = (a + x % M64 + y % M64 + z) % M64 := by
  conv_lhs => rw [← Nat.mod_add_div x M64, ← Nat.mod_add_div y M64]
  ring_nf
  omega

/-- Claim C1: for every parameter tuple satisfying the documented minimums,
the `SuperBlock` built by `SuperBlock::new_shared` satisfies
`node_storage = 256 + nodes_address_size + bitmaps_size +
total_blocks * block_size` (as `u64` arithmetic), with
`nodes_address_size = 72 + 32 * nodes`, `bitmaps_size = 96 + total_blocks / 8`,
and `total_blocks` a multiple of 8. -/
theorem new_shared_geometry_closure (owner program_id : List Nat)
    (storage redundancy nodes block_size tbf cbf mcf mlcf : Nat)
    (hnodes : 1 ≤ nodes) (hred : 100 ≤ redundancy) (hbs : 2048 ≤ block_size)
    (hstor : nodes * 1048576 ≤ storage) (sb : SuperBlock)
    (hsb : sb = SuperBlock.new_shared owner program_id storage redundancy nodes
      block_size tbf cbf mcf mlcf) :
    sb.node_storage =
      (256 + sb.nodes_address_size + sb.bitmaps_size
        + sb.total_blocks * sb.block_size) % M64
    ∧ sb.nodes_address_size = (72 + 32 * sb.nodes) % M64
    ∧ sb.bitmaps_size = (96 + sb.total_blocks / 8) % M64
    ∧ sb.total_blocks % 8 = 0 := by
  subst hsb
  refine ⟨?_, rfl, rfl, ?_⟩
  · show (256 + 72 + 32 * nodes + 96 + (tbf * 8 % M64) / 8
        + (tbf * 8 % M64) * block_size) % M64 = _
    have h := mod_add_distrib4 256 (72 + 32 * nodes) (96 + (tbf * 8 % M64) / 8)
      ((tbf * 8 % M64) * block_size)
    calc (256 + 72 + 32 * nodes + 96 + (tbf * 8 % M64) / 8
            + (tbf * 8 % M64) * block_size) % M64
        = (256 + (72 + 32 * nodes) + (96 + (tbf * 8 % M64) / 8)
            + (tbf * 8 % M64) * block_size) % M64 := by ring_nf
      _ = _ := h
  · show tbf * 8 % M64 % 8 = 0
    rw [Nat.mod_mod_of_dvd _ (by norm_num : (8 : Nat) ∣ M64), Nat.mul_mod_left]

/-- Witness for C1 at the documented example parameters
(`storage = 32 GiB`, `redundancy = 300`, `nodes = 50`, `block_size = 4096`). -/
theorem new_shared_geometry_closure_witness :
    (SuperBlock.new_shared (List.replicate 32 255) (List.replicate 32 1)
        34359738368 300 50 4096 3146 66733 185 251).node_storage =
      (256 + (SuperBlock.new_shared (List.replicate 32 255) (List.replicate 32 1)
          34359738368 300 50 4096 3146 66733 185 251).nodes_address_size
        + (SuperBlock.new_shared (List.replicate 32 255) (List.replicate 32 1)
            34359738368 300 50 4096 3146 66733 185 251).bitmaps_size
        + (SuperBlock.new_shared (List.replicate 32 255) (List.replicate 32 1)
              34359738368 300 50 4096 3146 66733 185 251).total_blocks
          * (SuperBlock.new_shared (List.replicate 32 255) (List.replicate 32 1)
              34359738368 300 50 4096 3146 66733 185 251).block_size) % M64
    ∧ (SuperBlock.new_shared (List.replicate 32 255) (List.replicate 32 1)
          34359738368 300 50 4096 3146 66733 185 251).nodes_address_size =
        (72 + 32 * (SuperBlock.new_shared (List.replicate 32 255)
            (List.replicate 32 1) 34359738368 300 50 4096 3146 66733 185
            251).nodes) % M64
    ∧ (SuperBlock.new_shared (List.replicate 32 255) (List.replicate 32 1)
          34359738368 300 50 4096 3146 66733 185 251).bitmaps_size =
        (96 + (SuperBlock.new_shared (List.replicate 32 255) (List.replicate 32 1)
            34359738368 300 50 4096 3146 66733 185 251).total_blocks / 8) % M64
    ∧ (SuperBlock.new_shared (List.replicate 32 255) (List.replicate 32 1)
          34359738368 300 50 4096 3146 66733 185 251).total_blocks % 8 = 0 :=
  new_shared_geometry_closure (List.replicate 32 255) (List.replicate 32 1)
    34359738368 300 50 4096 3146 66733 185 251 (by norm_num) (by norm_num)
    (by norm_num) (by norm_num) _ rfl

/-- The length of a Rust-style slice of a byte list. -/
theorem length_byteSlice (l : List Nat) (i j : Nat) :
    (byteSlice l i j).length = min (j - i) (l.length - i) := by
  simp [byteSlice]

/-- Claim C8: `SuperBlock::from_bytes` succeeds exactly on 256-byte buffers
whose first 8 bytes decode to a known magic word; any other length yields
`InvalidSuperBlockLength`, a 256-byte buffer with an unknown magic yields
`InvalidMagicWord`, and no other field is validated. -/
theorem super_block_from_bytes_cases (data : List Nat) :
    (data.length ≠ 256 →
      SuperBlock.from_bytes data = .error (.rdfs .InvalidSuperBlockLength))
    ∧ (data.length = 256 →
        (fromLE (byteSlice data 0 8) = FS_MAGIC_SHARED ∨
         fromLE (byteSlice data 0 8) = FS_MAGIC_PRIVATE) →
        ∃ sb, SuperBlock.from_bytes data = .ok sb)
    ∧ (data.length = 256 →
        fromLE (byteSlice data 0 8) ≠ FS_MAGIC_SHARED →
        fromLE (byteSlice data 0 8) ≠ FS_MAGIC_PRIVATE →
        SuperBlock.from_bytes data = .error (.rdfs .InvalidMagicWord)) := by
  refine ⟨fun h => ?_, fun h hm => ?_, fun h h1 h2 => ?_⟩
  · simp [SuperBlock.from_bytes, h]
  · have hlen : ¬ (byteSlice data 0 8).length ≠ 8 := by
      rw [length_byteSlice, h]; decide
    rcases hm with hS | hP
    · simp [SuperBlock.from_bytes, FileSystemType.from_bytes, h, hlen, hS]
    · have hne : FS_MAGIC_PRIVATE ≠ FS_MAGIC_SHARED := by decide
      by_cases hS : fromLE (byteSlice data 0 8) = FS_MAGIC_SHARED
      · simp [SuperBlock.from_bytes, FileSystemType.from_bytes, h, hlen, hS]
      · simp [SuperBlock.from_bytes, FileSystemType.from_bytes, h, hlen, hS, hP, hne]
  · have hlen : ¬ (byteSlice data 0 8).length ≠ 8 := by
      rw [length_byteSlice, h]; decide
    simp [SuperBlock.from_bytes, FileSystemType.from_bytes, h, hlen, h1, h2]

/-- Witness for C8: a zero-filled 256-byte buffer carrying the Shared magic
parses successfully. -/
theorem super_block_from_bytes_cases_witness :
    ∃ sb, SuperBlock.from_bytes
      ([82, 68, 70, 83, 45, 83, 72, 82] ++ List.replicate 248 0) = .ok sb :=
  (super_block_from_bytes_cases
      ([82, 68, 70, 83, 45, 83, 72, 82] ++ List.replicate 248 0)).2.1
    (by decide) (Or.inl (by decide))

/-- `utils::write_range` on an in-memory file image: seek to `start`
(extending a short file with zeros) and overwrite with `data`. -/
def write_range (file : List Nat) (start : Nat) (data : List Nat) : List Nat :=
  file.take start ++ List.replicate (start - file.length) 0 ++ data
    ++ file.drop (start + data.length)

/-- `utils::read_range` on an in-memory file image: `read_exact` of
`stop - start` bytes from offset `start` fails past the end of the file. -/
def read_range (file : List Nat) (start stop : Nat) : RunResult (List Nat) :=
  if stop - start = 0 then .ok []
  else if start + (stop - start) ≤ file.length then .ok (byteSlice file start stop)
  else .err .io

/-- `RDFS::read_block`: pointer range and alignment checks, then a
`block_size`-byte read.  A zero `block_size` makes the Rust `%` abort. -/
def RDFS.read_block (sb : SuperBlock) (file : List Nat) (pointer : Nat) :
    RunResult (List Nat) :=
  if pointer < sb.data_pointer then .err (.rdfs .PointerOutOfRange)
  else if sb.block_size = 0 then .panicked
  else if (pointer - sb.data_pointer) % sb.block_size ≠ 0 then
    .err (.rdfs .InvalidPointerAlignment)
  else read_range file pointer (pointer + sb.block_size)

/-- `RDFS::write_block`: the same pointer checks, then an unconditional
`write_range` of the caller's buffer (its length is not inspected). -/
def RDFS.write_block (sb : SuperBlock) (file : List Nat) (pointer : Nat)
    (data : List Nat) : RunResult (List Nat) :=
  if pointer < sb.data_pointer then .err (.rdfs .PointerOutOfRange)
  else if sb.block_size = 0 then .panicked
  else if (pointer - sb.data_pointer) % sb.block_size ≠ 0 then
    .err (.rdfs .InvalidPointerAlignment)
  else .ok (write_range file pointer data)

/-- The shard file after a `write_block` call: unchanged unless the write
itself executed. -/
def RDFS.write_block_file (sb : SuperBlock) (file : List Nat) (pointer : Nat)
    (data : List Nat) : List Nat :=
  match RDFS.write_block sb file pointer data with
  | .ok f => f
  | _ => file

/-- A `SuperBlock` with the fields the block accessors consult; the remaining
fields are zeroed. -/
def mkSB (magic : FileSystemType)
    (total_blocks block_size data_pointer bitmaps_pointer bitmaps_size : Nat) :
    SuperBlock :=
  { magic, owner := List.replicate 32 0, program_id := List.replicate 32 0,
    storage := 0, redundancy := 0, nodes := 0, block_size, total_blocks,
    client_block_size := 0, node_storage := 0, nodes_address_pointer := 0,
    bitmaps_pointer, data_pointer, inode_pointer := 0, nodes_address_size := 0,
    bitmaps_size, max_content_pointers := 0, max_linked_content_pointers := 0,
    signature := List.replicate 64 0 }

/-- Claim C7 (amended): `read_block`/`write_block` return `PointerOutOfRange`
for any pointer below `data_pointer`, and — provided `block_size ≠ 0` —
`InvalidPointerAlignment` for any in-range misaligned pointer; in both error
cases the shard file is untouched.  (With `block_size = 0` the remainder
operation aborts instead of returning the alignment error.) -/
theorem block_pointer_checks (sb : SuperBlock) (file : List Nat) (p : Nat)
    (data : List Nat) :
    (p < sb.data_pointer →
      RDFS.read_block sb file p = .err (.rdfs .PointerOutOfRange)
      ∧ RDFS.write_block sb file p data = .err (.rdfs .PointerOutOfRange)
      ∧ RDFS.write_block_file sb file p data = file)
    ∧ (sb.data_pointer ≤ p → sb.block_size ≠ 0 →
        (p - sb.data_pointer) % sb.block_size ≠ 0 →
      RDFS.read_block sb file p = .err (.rdfs .InvalidPointerAlignment)
      ∧ RDFS.write_block sb file p data = .err (.rdfs .InvalidPointerAlignment)
      ∧ RDFS.write_block_file sb file p data = file) := by
  constructor
  · intro h
    simp [RDFS.read_block, RDFS.write_block, RDFS.write_block_file, h]
  · intro h hbs hal
    simp [RDFS.read_block, RDFS.write_block, RDFS.write_block_file,
      Nat.not_lt.mpr h, hbs, hal]

/-- Witness for C7 at a concrete drive (`data_pointer = 4`,
`block_size = 2`): pointer 3 is out of range, pointer 5 is misaligned. -/
theorem block_pointer_checks_witness :
    (RDFS.read_block (mkSB .Shared 8 2 4 0 0) [0, 0, 0, 0, 0, 0] 3 =
        .err (.rdfs .PointerOutOfRange)
      ∧ RDFS.write_block (mkSB .Shared 8 2 4 0 0) [0, 0, 0, 0, 0, 0] 3 [1] =
        .err (.rdfs .PointerOutOfRange)
      ∧ RDFS.write_block_file (mkSB .Shared 8 2 4 0 0) [0, 0, 0, 0, 0, 0] 3 [1] =
        [0, 0, 0, 0, 0, 0])
    ∧ (RDFS.read_block (mkSB .Shared 8 2 4 0 0) [0, 0, 0, 0, 0, 0] 5 =
        .err (.rdfs .InvalidPointerAlignment)
      ∧ RDFS.write_block (mkSB .Shared 8 2 4 0 0) [0, 0, 0, 0, 0, 0] 5 [1] =
        .err (.rdfs .InvalidPointerAlignment)
      ∧ RDFS.write_block_file (mkSB .Shared 8 2 4 0 0) [0, 0, 0, 0, 0, 0] 5 [1] =
        [0, 0, 0, 0, 0, 0]) :=
  ⟨(block_pointer_checks (mkSB .Shared 8 2 4 0 0) [0, 0, 0, 0, 0, 0] 3 [1]).1
      (by decide),
   (block_pointer_checks (mkSB .Shared 8 2 4 0 0) [0, 0, 0, 0, 0, 0] 5 [1]).2
      (by decide) (by decide) (by decide)⟩

/-- Counterexample for C7 as stated: a 256-byte image with a valid Shared
magic and an all-zero body mounts successfully with `block_size = 0`; on such
a drive an in-range, misaligned pointer makes `read_block`/`write_block`
abort on `% 0` instead of returning `InvalidPointerAlignment`. -/
theorem block_pointer_checks_cx :
    SuperBlock.from_bytes ([82, 68, 70, 83, 45, 83, 72, 82] ++
        List.replicate 248 0) = .ok (mkSB .Shared 0 0 0 0 0)
    ∧ (mkSB .Shared 0 0 0 0 0).data_pointer ≤ 1
    ∧ (1 - (mkSB .Shared 0 0 0 0 0).data_pointer) %
        (mkSB .Shared 0 0 0 0 0).block_size ≠ 0
    ∧ RDFS.read_block (mkSB .Shared 0 0 0 0 0) (List.replicate 300 0) 1 =
        .panicked
    ∧ RDFS.write_block (mkSB .Shared 0 0 0 0 0) (List.replicate 300 0) 1 [] =
        .panicked := by
  decide

/-- The `BitmapsBlock` struct of `bitmaps_block.rs`. -/
structure BitmapsBlock where
  total_blocks : Nat
  free_blocks : Nat
  last_modify : Nat
  bit_field : List Nat
  signature : List Nat
  deriving DecidableEq, Repr

/-- `BitmapsBlock::new`: zeroed bit field of `total_blocks / 8` bytes, all
blocks free. -/
def BitmapsBlock.new (total_blocks timestamp : Nat) : BitmapsBlock :=
  { total_blocks, free_blocks := total_blocks, last_modify := timestamp,
    bit_field := List.replicate (total_blocks / 8) 0,
    signature := List.replicate 64 0 }

/-- `BitmapsBlock::get_bit` (out-of-range indices read as `false`). -/
def BitmapsBlock.get_bit (b : BitmapsBlock) (bit_index : Nat) : Bool :=
  let byte := bit_index / 8
  let bit := bit_index % 8
  if byte < b.bit_field.length then (b.bit_field.getD byte 0 &&& 1 <<< bit) != 0
  else false

/-- `BitmapsBlock::set_bit`; `time` is the outcome of the
`current_time_as_u64()` call performed when the bit flips (on failure the
previous `last_modify` is kept). -/
def BitmapsBlock.set_bit (b : BitmapsBlock) (bit_index : Nat)
    (time : Option Nat) : BitmapsBlock :=
  let byte := bit_index / 8
  let bit := bit_index % 8
  if byte < b.bit_field.length then
    let mask := 1 <<< bit
    if b.bit_field.getD byte 0 &&& mask = 0 then
      { b with bit_field := b.bit_field.set byte (b.bit_field.getD byte 0 ||| mask),
               free_blocks := usizeSub b.free_blocks 1,
               last_modify := time.getD b.last_modify }
    else b
  else b

/-- `BitmapsBlock::clear_bit`; the `!mask` of the source is the `u8`
complement `255 ^^^ mask`. -/
def BitmapsBlock.clear_bit (b : BitmapsBlock) (bit_index : Nat)
    (time : Option Nat) : BitmapsBlock :=
  let byte := bit_index / 8
  let bit := bit_index % 8
  if byte < b.bit_field.length then
    let mask := 1 <<< bit
    if b.bit_field.getD byte 0 &&& mask ≠ 0 then
      { b with bit_field := b.bit_field.set byte (b.bit_field.getD byte 0 &&& (255 ^^^ mask)),
               free_blocks := (b.free_blocks + 1) % M64,
               last_modify := time.getD b.last_modify }
    else b
  else b

/-- `BitmapsBlock::to_bytes`. -/
def BitmapsBlock.to_bytes (b : BitmapsBlock) : List Nat :=
  leBytes 8 b.total_blocks ++ leBytes 8 b.free_blocks ++ leBytes 8 b.last_modify
    ++ leBytes 8 b.bit_field.length ++ b.bit_field ++ b.signature

/-- `BitmapsBlock::from_bytes` (headers abort on a buffer shorter than 32
bytes, which the first check only excludes when `bitmaps_size ≥ 32`). -/
def BitmapsBlock.from_bytes (data : List Nat) (bitmaps_size : Nat) :
    RunResult BitmapsBlock :=
  if data.length ≠ bitmaps_size then .err (.rdfs .InvalidBitmapsBlockLength)
  else if bitmaps_size < 32 then .panicked
  else
    let length := fromLE (byteSlice data 24 32)
    if 96 + length ≠ bitmaps_size then .err (.rdfs .InvalidEncodedBitmapsBlockLength)
    else
      .ok { total_blocks := fromLE (byteSlice data 0 8),
            free_blocks := fromLE (byteSlice data 8 16),
            last_modify := fromLE (byteSlice data 16 24),
            bit_field := byteSlice data 32 (data.length - 64),
            signature := byteSlice data (bitmaps_size - 64) bitmaps_size }

/-- `RDFS::write_bitmaps`: parse, cross-check against the mounted geometry,
then overwrite the bitmap region. -/
def RDFS.write_bitmaps (sb : SuperBlock) (file : List Nat) (data : List Nat) :
    RunResult (List Nat) :=
  match sb.magic with
  | .Shared =>
    match BitmapsBlock.from_bytes data sb.bitmaps_size with
    | .err e => .err e
    | .panicked => .panicked
    | .ok bitmaps =>
      if bitmaps.total_blocks ≠ sb.total_blocks
          ∨ bitmaps.bit_field.length ≠ sb.total_blocks then
        .err (.rdfs .InvalidBitmapsBlockLength)
      else .ok (write_range file sb.bitmaps_pointer data)
  | .Private => .err (.rdfs .NoBitmapsPrivateRDFS)

/-- An abstract `set_bit`/`clear_bit` call, carrying the index and the
wall-clock reading of that call. -/
inductive BitmapOp where
  | set (bit_index : Nat) (time : Option Nat)
  | clear (bit_index : Nat) (time : Option Nat)

/-- Run one bitmap mutation. -/
def BitmapsBlock.apply_op (b : BitmapsBlock) : BitmapOp → BitmapsBlock
  | .set i t => b.set_bit i t
  | .clear i t => b.clear_bit i t

/-- Run a sequence of bitmap mutations. -/
def BitmapsBlock.apply_ops (b : BitmapsBlock) (ops : List BitmapOp) : BitmapsBlock :=
  ops.foldl BitmapsBlock.apply_op b

/-- Number of zero bits in one `u8` of the bit field. -/
def zeroBitsByte (b : Nat) : Nat := (List.range 8).countP (fun j => ! b.testBit j)

/-- Number of zero bits in a bit field. -/
def zeroBits (field : List Nat) : Nat := (field.map zeroBitsByte).sum

/-- Setting a clear bit in a byte removes exactly one zero bit. -/
theorem zeroBitsByte_or : ∀ b < 256, ∀ k < 8, b &&& 1 <<< k = 0 →
    zeroBitsByte (b ||| 1 <<< k) + 1 = zeroBitsByte b ∧ b ||| 1 <<< k < 256 := by
  decide

/-- Clearing a set bit in a byte adds exactly one zero bit. -/
theorem zeroBitsByte_and : ∀ b < 256, ∀ k < 8, b &&& 1 <<< k ≠ 0 →
    zeroBitsByte (b &&& (255 ^^^ 1 <<< k)) = zeroBitsByte b + 1
    ∧ b &&& (255 ^^^ 1 <<< k) < 256 := by
  decide

/-- A byte holds at most 8 zero bits. -/
theorem zeroBitsByte_le (b : Nat) : zeroBitsByte b ≤ 8 := by
  have h : (List.range 8).countP (fun j => ! b.testBit j) ≤ (List.range 8).length :=
    List.countP_le_length _
  simpa [zeroBitsByte] using h

/-- A bit field of `n` bytes holds at most `8 n` zero bits. -/
theorem zeroBits_le (l : List Nat) : zeroBits l ≤ 8 * l.length := by
  induction l with
  | nil => simp [zeroBits]
  | cons a l ih =>
    have ha := zeroBitsByte_le a
    simp only [zeroBits, List.map_cons, List.sum_cons, List.length_cons] at ih ⊢
    omega

/-- Effect of an in-range `List.set` on a mapped sum. -/
theorem sum_map_set (f : Nat → Nat) : ∀ (l : List Nat) (i v : Nat), i < l.length →
    ((l.set i v).map f).sum + f (l.getD i 0) = (l.map f).sum + f v := by
  intro l
  induction l with
  | nil => intro i v h; simp at h
  | cons a l ih =>
    intro i v h
    cases i with
    | zero =>
      simp only [List.set, List.map_cons, List.sum_cons, List.getD_cons_zero]
      omega
    | succ i =>
      have h2 : i < l.length := by simpa using h
      have h3 := ih i v h2
      simp only [List.set, List.map_cons, List.sum_cons, List.getD_cons_succ]
      omega

/-- The bitmap-accounting invariant: `free_blocks` counts the zero bits, every
stored byte is a `u8`, and the bit count stays below `2 ^ 64`. -/
def BitmapInv (b : BitmapsBlock) : Prop :=
  b.free_blocks = zeroBits b.bit_field
  ∧ (∀ x ∈ b.bit_field, x < 256)
  ∧ 8 * b.bit_field.length < M64

/-- `set_bit` preserves the bitmap-accounting invariant. -/
theorem set_bit_inv (b : BitmapsBlock) (i : Nat) (t : Option Nat)
    (h : BitmapInv b) : BitmapInv (b.set_bit i t) := by
  obtain ⟨hfree, hbytes, hlen⟩ := h
  unfold BitmapInv
  simp only [BitmapsBlock.set_bit]
  by_cases hb : i / 8 < b.bit_field.length
  · rw [if_pos hb]
    by_cases hz : b.bit_field.getD (i / 8) 0 &&& 1 <<< (i % 8) = 0
    · rw [if_pos hz]
      dsimp only
      have hmem : b.bit_field.getD (i / 8) 0 ∈ b.bit_field := by
        rw [List.getD_eq_getElem b.bit_field 0 hb]
        exact List.getElem_mem hb
      have hlt := hbytes _ hmem
      have hbit : i % 8 < 8 := Nat.mod_lt _ (by norm_num)
      obtain ⟨hz1, hz2⟩ := zeroBitsByte_or _ hlt _ hbit hz
      have hsum := sum_map_set zeroBitsByte b.bit_field (i / 8)
        (b.bit_field.getD (i / 8) 0 ||| 1 <<< (i % 8)) hb
      have hZle := zeroBits_le b.bit_field
      refine ⟨?_, ?_, ?_⟩
      · show usizeSub b.free_blocks 1 = zeroBits _
        unfold usizeSub
        unfold zeroBits at hfree hZle ⊢
        simp only [M64] at hlen ⊢
        omega
      · intro x hx
        rcases List.mem_or_eq_of_mem_set hx with hmem2 | rfl
        · exact hbytes x hmem2
        · exact hz2
      · rw [List.length_set]; exact hlen
    · rw [if_neg hz]; exact ⟨hfree, hbytes, hlen⟩
  · rw [if_neg hb]; exact ⟨hfree, hbytes, hlen⟩

/-- `clear_bit` preserves the bitmap-accounting invariant. -/
theorem clear_bit_inv (b : BitmapsBlock) (i : Nat) (t : Option Nat)
    (h : BitmapInv b) : BitmapInv (b.clear_bit i t) := by
  obtain ⟨hfree, hbytes, hlen⟩ := h
  unfold BitmapInv
  simp only [BitmapsBlock.clear_bit]
  by_cases hb : i / 8 < b.bit_field.length
  · rw [if_pos hb]
    by_cases hz : b.bit_field.getD (i / 8) 0 &&& 1 <<< (i % 8) ≠ 0
    · rw [if_pos hz]
      dsimp only
      have hmem : b.bit_field.getD (i / 8) 0 ∈ b.bit_field := by
        rw [List.getD_eq_getElem b.bit_field 0 hb]
        exact List.getElem_mem hb
      have hlt := hbytes _ hmem
      have hbit : i % 8 < 8 := Nat.mod_lt _ (by norm_num)
      obtain ⟨hz1, hz2⟩ := zeroBitsByte_and _ hlt _ hbit hz
      have hsum := sum_map_set zeroBitsByte b.bit_field (i / 8)
        (b.bit_field.getD (i / 8) 0 &&& (255 ^^^ 1 <<< (i % 8))) hb
      have hZle2 := zeroBits_le
        (b.bit_field.set (i / 8) (b.bit_field.getD (i / 8) 0 &&& (255 ^^^ 1 <<< (i % 8))))
      rw [List.length_set] at hZle2
      refine ⟨?_, ?_, ?_⟩
      · show (b.free_blocks + 1) % M64 = zeroBits _
        unfold zeroBits at hfree hZle2 ⊢
        simp only [M64] at hlen ⊢
        omega
      · intro x hx
        rcases List.mem_or_eq_of_mem_set hx with hmem2 | rfl
        · exact hbytes x hmem2
        · exact hz2
      · rw [List.length_set]; exact hlen
    · rw [if_neg hz]; exact ⟨hfree, hbytes, hlen⟩
  · rw [if_neg hb]; exact ⟨hfree, hbytes, hlen⟩

/-- `BitmapsBlock::new` establishes the invariant when `total_blocks` is a
multiple of 8 (so the bit field covers every block) and fits in a `u64`. -/
theorem new_bitmap_inv (tb ts : Nat) (h8 : tb % 8 = 0) (hM : tb < M64) :
    BitmapInv (BitmapsBlock.new tb ts) := by
  unfold BitmapInv BitmapsBlock.new
  refine ⟨?_, ?_, ?_⟩
  · show tb = zeroBits (List.replicate (tb / 8) 0)
    unfold zeroBits
    rw [List.map_replicate]
    have h0 : zeroBitsByte 0 = 8 := by decide
    rw [h0, List.sum_replicate, smul_eq_mul]
    omega
  · intro x hx
    rw [List.eq_of_mem_replicate hx]
    norm_num
  · simp only [List.length_replicate]
    omega

/-- One mutation preserves the invariant. -/
theorem apply_op_inv (b : BitmapsBlock) (op : BitmapOp) (h : BitmapInv b) :
    BitmapInv (b.apply_op op) := by
  cases op with
  | set i t => exact set_bit_inv b i t h
  | clear i t => exact clear_bit_inv b i t h

/-- Any mutation sequence preserves the invariant. -/
theorem apply_ops_inv (ops : List BitmapOp) : ∀ (b : BitmapsBlock),
    BitmapInv b → BitmapInv (b.apply_ops ops) := by
  induction ops with
  | nil => intro b h; exact h
  | cons op ops ih => intro b h; exact ih _ (apply_op_inv b op h)

/-- Claim C5 (amended): when `total_blocks` is a multiple of 8 (as the shared
geometry always makes it) and fits in a `u64`, `free_blocks` equals the number
of zero bits of the bit field after any sequence of `set_bit`/`clear_bit`
calls with arbitrary indices starting from `BitmapsBlock::new`. -/
theorem bitmap_accounting (total_blocks timestamp : Nat) (ops : List BitmapOp)
    (h8 : total_blocks % 8 = 0) (hM : total_blocks < M64) :
    ((BitmapsBlock.new total_blocks timestamp).apply_ops ops).free_blocks
      = zeroBits ((BitmapsBlock.new total_blocks timestamp).apply_ops ops).bit_field :=
  (apply_ops_inv ops _ (new_bitmap_inv total_blocks timestamp h8 hM)).1

/-- Witness for C5: `total_blocks = 16`, one effective `set_bit`, one no-op
out-of-range `clear_bit`, one effective `clear_bit`. -/
theorem bitmap_accounting_witness :
    ((BitmapsBlock.new 16 5).apply_ops
        [.set 3 (some 9), .clear 200 (some 10), .clear 3 none]).free_blocks
      = zeroBits (((BitmapsBlock.new 16 5)).apply_ops
        [.set 3 (some 9), .clear 200 (some 10), .clear 3 none]).bit_field :=
  bitmap_accounting 16 5 [.set 3 (some 9), .clear 200 (some 10), .clear 3 none]
    (by decide) (by decide)

/-- Counterexample for C5 as stated: with `total_blocks = 1` the bit field is
empty, so right after `BitmapsBlock::new` (the empty mutation sequence)
`free_blocks = 1` while the bit field has no zero bit at all. -/
theorem bitmap_accounting_cx :
    ((BitmapsBlock.new 1 0).apply_ops []).free_blocks
      ≠ zeroBits (((BitmapsBlock.new 1 0)).apply_ops []).bit_field := by
  decide

/-- Claim C2, the code evaluated at a failing input: on a mounted Shared
drive with `total_blocks = 1024` (`bitmaps_size = 96 + 1024 / 8 = 224`),
`write_bitmaps` rejects the serialization of `BitmapsBlock::new(1024, t)` —
a buffer of the correct `bitmaps_size` whose bit field covers every block —
with `InvalidBitmapsBlockLength`, because the guard compares
`bit_field.len()` (= 128) against `total_blocks` instead of
`total_blocks / 8`. -/
theorem write_bitmaps_rejects_fresh_bitmap :
    (BitmapsBlock.new 1024 7).to_bytes.length =
      (mkSB .Shared 1024 4096 480 256 224).bitmaps_size
    ∧ 8 * (BitmapsBlock.new 1024 7).bit_field.length =
      (mkSB .Shared 1024 4096 480 256 224).total_blocks
    ∧ RDFS.write_bitmaps (mkSB .Shared 1024 4096 480 256 224)
        (List.replicate 480 0) (BitmapsBlock.new 1024 7).to_bytes =
      .err (.rdfs .InvalidBitmapsBlockLength) := by
  decide

/-- `getD` of a zero-filled replicate list. -/
theorem getD_replicate_zero (n k : Nat) : (List.replicate n 0).getD k 0 = 0 := by
  rcases Nat.lt_or_ge k n with h | h
  · rw [List.getD_eq_getElem _ _ (by simpa using h)]
    exact List.getElem_replicate ..
  · exact List.getD_eq_default _ _ (by simpa using h)

/-- `getD` after an in-place update at the same index. -/
theorem getD_set_self (l : List Nat) (i v : Nat) (h : i < l.length) :
    (l.set i v).getD i 0 = v := by
  rw [List.getD_eq_getElem _ _ (by simpa using h)]
  exact List.getElem_set_self ..

/-- `getD` after an in-place update at another index. -/
theorem getD_set_ne (l : List Nat) (i j v : Nat) (hne : i ≠ j)
    (hj : j < l.length) : (l.set i v).getD j 0 = l.getD j 0 := by
  rw [List.getD_eq_getElem _ _ (by simpa using hj), List.getD_eq_getElem _ _ hj]
  apply List.getElem_set_ne hne

/-- The bitmap block that `RDFS::new_shared` builds before writing it at
`bitmaps_pointer`: a fresh bitmap with bit `total_blocks - 1` set (the
index is the `usize` value of `total_blocks as usize - 1`); `time` is the
wall-clock reading of the `set_bit` call. -/
def RDFS.new_shared_bitmaps_block (total_blocks timestamp : Nat)
    (time : Option Nat) : BitmapsBlock :=
  (BitmapsBlock.new total_blocks timestamp).set_bit (usizeSub total_blocks 1) time

/-- The buffer `RDFS::new_shared` writes at `bitmaps_pointer`. -/
def RDFS.new_shared_bitmap_buffer (total_blocks timestamp : Nat)
    (time : Option Nat) : List Nat :=
  (RDFS.new_shared_bitmaps_block total_blocks timestamp time).to_bytes

/-- Claim C9 (amended): for every accepted Shared creation whose geometry
yields a positive `total_blocks` (always a multiple of 8), the buffer
written at `bitmaps_pointer` is the serialization of a bitmap block in
which bit `total_blocks - 1` is set, every other in-range bit is clear, and
`free_blocks = total_blocks - 1`.  (The documented minimums also admit
parameter tuples whose geometry collapses to `total_blocks = 0`; there the
`set_bit` index wraps to `usize::MAX`, the call is a no-op, and the written
bitmap has no bit set — see the counterexample below.) -/
theorem new_shared_bitmap_spec (tb ts : Nat) (time : Option Nat)
    (h8 : tb % 8 = 0) (h0 : tb ≠ 0) (hM : tb < M64) :
    ∃ bb : BitmapsBlock, RDFS.new_shared_bitmap_buffer tb ts time = bb.to_bytes
      ∧ bb.get_bit (tb - 1) = true
      ∧ (∀ i, i < tb → i ≠ tb - 1 → bb.get_bit i = false)
      ∧ bb.free_blocks = tb - 1 := by
  have hM2 : tb < 18446744073709551616 := hM
  have hsub : usizeSub tb 1 = tb - 1 := by
    show (tb + 18446744073709551616 - 1) % 18446744073709551616 = tb - 1
    omega
  have hbyte : (tb - 1) / 8 = tb / 8 - 1 := by omega
  have hbit : (tb - 1) % 8 = 7 := by omega
  have hn : 1 ≤ tb / 8 := by omega
  have hbb : RDFS.new_shared_bitmaps_block tb ts time =
      { total_blocks := tb, free_blocks := usizeSub tb 1,
        last_modify := time.getD ts,
        bit_field := (List.replicate (tb / 8) 0).set (tb / 8 - 1) 128,
        signature := List.replicate 64 0 } := by
    unfold RDFS.new_shared_bitmaps_block
    simp only [BitmapsBlock.set_bit, BitmapsBlock.new, hsub, hbyte, hbit,
      List.length_replicate, getD_replicate_zero]
    rw [if_pos (by omega), if_pos (by decide)]
    simp only [Nat.zero_or, Nat.shiftLeft_eq]
  refine ⟨RDFS.new_shared_bitmaps_block tb ts time, rfl, ?_, ?_, ?_⟩
  · rw [hbb]
    simp only [BitmapsBlock.get_bit, List.length_set, List.length_replicate,
      hbyte, hbit]
    rw [if_pos (by omega),
      getD_set_self _ _ _ (by rw [List.length_replicate]; omega)]
    decide
  · intro i hi hne
    rw [hbb]
    simp only [BitmapsBlock.get_bit, List.length_set, List.length_replicate]
    rw [if_pos (by omega)]
    by_cases hc : i / 8 = tb / 8 - 1
    · rw [hc, getD_set_self _ _ _ (by rw [List.length_replicate]; omega)]
      have h7 : i % 8 < 7 := by omega
      revert h7
      have hgen : ∀ k < 7, ((128 &&& 1 <<< k : Nat) != 0) = false := by decide
      exact hgen (i % 8)
    · rw [getD_set_ne _ _ _ _ (fun hx => hc hx.symm)
        (by rw [List.length_replicate]; omega), getD_replicate_zero]
      simp [Nat.zero_and]
  · rw [hbb]
    exact hsub

/-- Witness for C9 at `total_blocks = 8`. -/
theorem new_shared_bitmap_spec_witness :
    ∃ bb : BitmapsBlock, RDFS.new_shared_bitmap_buffer 8 3 (some 11) = bb.to_bytes
      ∧ bb.get_bit 7 = true
      ∧ (∀ i, i < 8 → i ≠ 7 → bb.get_bit i = false)
      ∧ bb.free_blocks = 7 :=
  new_shared_bitmap_spec 8 3 (some 11) (by decide) (by decide) (by decide)

/-- Counterexample for C9 as stated: the parameter tuple
`nodes = 40000, redundancy = 100, storage = 40000 * 1048576 = 41943040000,
block_size = 2048` satisfies every documented minimum, yet its per-node
budget (1048576 bytes) is smaller than the metadata prefix
(256 + 72 + 32 * 40000 + 96 bytes), so `remain_storage` is negative and the
saturating `ceil(..) as u64` cast yields 0 — `new_shared` produces
`total_blocks = 0`.  The creation still completes, and the bitmap block it
writes at `bitmaps_pointer` is the untouched `BitmapsBlock::new(0, ts)`:
the `set_bit(total_blocks as usize - 1)` index wraps to `usize::MAX` and is
ignored, so no bit is set (neither at index `total_blocks - 1` read as 0 nor
at the wrapped `usize` index) and `free_blocks = 0`. -/
theorem new_shared_bitmap_spec_cx :
    (SuperBlock.new_shared (List.replicate 32 255) (List.replicate 32 1)
        41943040000 100 40000 2048 0 78240000 57 123).total_blocks = 0
    ∧ RDFS.new_shared_bitmaps_block 0 5 none = BitmapsBlock.new 0 5
    ∧ (RDFS.new_shared_bitmaps_block 0 5 none).bit_field = []
    ∧ (RDFS.new_shared_bitmaps_block 0 5 none).get_bit (0 - 1) = false
    ∧ (RDFS.new_shared_bitmaps_block 0 5 none).get_bit (usizeSub 0 1) = false
    ∧ (RDFS.new_shared_bitmaps_block 0 5 none).free_blocks = 0 := by
  decide

/-- Claim C4 (amended): `write_block` never inspects `data.len`; with an
in-range, aligned pointer (and a nonzero block size) it succeeds and writes
the caller's buffer as-is, whatever its length. -/
theorem write_block_ignores_data_length (sb : SuperBlock) (file : List Nat)
    (p : Nat) (data : List Nat) (hp : sb.data_pointer ≤ p)
    (hbs : sb.block_size ≠ 0)
    (hal : (p - sb.data_pointer) % sb.block_size = 0) :
    RDFS.write_block sb file p data = .ok (write_range file p data) := by
  simp [RDFS.write_block, Nat.not_lt.mpr hp, hbs, hal]

/-- Witness for C4 (amended) with a one-byte buffer on a two-byte-block
drive. -/
theorem write_block_ignores_data_length_witness :
    RDFS.write_block (mkSB .Shared 8 2 4 0 0) [0, 0, 0, 0, 0, 0] 4 [7] =
      .ok (write_range [0, 0, 0, 0, 0, 0] 4 [7]) :=
  write_block_ignores_data_length (mkSB .Shared 8 2 4 0 0) [0, 0, 0, 0, 0, 0]
    4 [7] (by decide) (by decide) (by decide)

/-- Counterexample for C4 as stated: on a drive with `block_size = 2` and
`data_pointer = 4`, writing the 1-byte buffer `[7]` at the aligned pointer 4
does not fail — the buffer is written even though its length is not
`block_size`. -/
theorem write_block_ignores_data_length_cx :
    ([7] : List Nat).length ≠ (mkSB .Shared 8 2 4 0 0).block_size
    ∧ (mkSB .Shared 8 2 4 0 0).data_pointer ≤ 4
    ∧ (4 - (mkSB .Shared 8 2 4 0 0).data_pointer) %
        (mkSB .Shared 8 2 4 0 0).block_size = 0
    ∧ RDFS.write_block (mkSB .Shared 8 2 4 0 0) [0, 0, 0, 0, 0, 0] 4 [7] =
        .ok [0, 0, 0, 0, 7, 0] := by
  decide

/-- Claim C10: a successful `write_block` leaves every existing byte of the
shard file strictly below `data_pointer` unchanged — the super block, address
block and bitmap regions cannot be modified through `write_block`. -/
theorem write_block_preserves_metadata (sb : SuperBlock) (file : List Nat)
    (p : Nat) (data : List Nat) (out : List Nat)
    (hok : RDFS.write_block sb file p data = .ok out)
    (i : Nat) (hi : i < sb.data_pointer) (hif : i < file.length) :
    out[i]? = file[i]? := by
  unfold RDFS.write_block at hok
  split_ifs at hok with h1 h2 h3
  have hout : write_range file p data = out := by
    simpa using hok
  subst hout
  have hip : i < p := Nat.lt_of_lt_of_le hi (Nat.not_lt.mp h1)
  unfold write_range
  rw [List.getElem?_append, if_pos (by simp; omega),
    List.getElem?_append, if_pos (by simp; omega),
    List.getElem?_append, if_pos (by simp; omega),
    List.getElem?_take, if_pos hip]

/-- Witness for C10: overwriting the block at pointer 4 leaves byte 2 of the
metadata region intact. -/
theorem write_block_preserves_metadata_witness :
    ([1, 2, 3, 4, 7, 8] : List Nat)[2]? = ([1, 2, 3, 4, 9, 9] : List Nat)[2]? :=
  write_block_preserves_metadata (mkSB .Shared 8 2 4 0 0) [1, 2, 3, 4, 9, 9]
    4 [7, 8] [1, 2, 3, 4, 7, 8] (by decide) 2 (by decide) (by decide)

/-- `leBytes` always produces the requested number of bytes. -/
theorem length_leBytes (n : Nat) : ∀ v, (leBytes n v).length = n := by
  induction n with
  | zero => intro v; rfl
  | succ n ih => intro v; simp [leBytes, ih]

/-- Little-endian round-trip for values in range. -/
theorem fromLE_leBytes (n : Nat) : ∀ v, v < 256 ^ n → fromLE (leBytes n v) = v := by
  induction n with
  | zero =>
    intro v h
    have hv : v = 0 := by simpa using h
    simp [hv, leBytes, fromLE]
  | succ n ih =>
    intro v h
    have hdiv : v / 256 < 256 ^ n := by
      apply Nat.div_lt_of_lt_mul
      calc v < 256 ^ (n + 1) := h
        _ = 256 * 256 ^ n := by ring
    simp only [leBytes, fromLE]
    rw [ih (v / 256) hdiv]
    omega

/-- Slicing a concatenation at the left block. -/
theorem byteSlice_left (a b : List Nat) (j : Nat) (h : j = a.length) :
    byteSlice (a ++ b) 0 j = a := by
  subst h
  simp only [byteSlice, List.drop_zero, Nat.sub_zero]
  exact List.take_left a b

/-- Slicing a concatenation past the left block. -/
theorem byteSlice_right (a b : List Nat) (i j : Nat) (h : a.length ≤ i) :
    byteSlice (a ++ b) i j = byteSlice b (i - a.length) (j - a.length) := by
  have hdrop : (a ++ b).drop i = b.drop (i - a.length) := by
    have h2 : i = a.length + (i - a.length) := by omega
    conv_lhs => rw [h2]
    rw [List.drop_append]
  simp only [byteSlice, hdrop]
  congr 1
  omega

/-- The length of `Vec::resize` when the vector does not shrink. -/
theorem length_resize_of_le (l : List Nat) (n : Nat) (h : l.length ≤ n) :
    (resize l n).length = n := by
  simp only [resize, List.length_append, List.length_take, List.length_replicate]
  omega

/-- `Vec::resize` pads with zeros when the vector does not shrink. -/
theorem resize_eq_append (l : List Nat) (n : Nat) (h : l.length ≤ n) :
    resize l n = l ++ List.replicate (n - l.length) 0 := by
  simp only [resize, List.take_of_length_le h]

/-- The `DataBlock` struct of `data_block.rs`. -/
structure DataBlock where
  block_number : Nat
  timestamp : Nat
  data : List Nat
  signature : List Nat
  deriving DecidableEq, Repr

/-- `DataBlock::to_bytes`: header, payload, zero padding to
`block_size - 64`, signature.  (`block_size - SIG_SIZE` uses truncated
subtraction; every caller has `block_size ≥ 88`, below 64 the source
aborts.) -/
def DataBlock.to_bytes (b : DataBlock) (block_size : Nat) : List Nat :=
  resize (leBytes 8 b.block_number ++ leBytes 8 b.timestamp
      ++ leBytes 8 b.data.length ++ b.data) (block_size - 64)
    ++ b.signature

/-- `DataBlock::from_bytes`: exact-length check, then the declared payload
length is bounded by `block_size - RESERVED_DB` (a release-mode wrap-around
for `block_size < 88`, where the payload slice then aborts); the returned
payload is the whole span from byte 24 to `block_size - 64`. -/
def DataBlock.from_bytes (data : List Nat) (block_size : Nat) :
    RunResult DataBlock :=
  if data.length ≠ block_size then .err (.rdfs .InvalidDataBlockLength)
  else if block_size < 24 then .panicked
  else
    let length := fromLE (byteSlice data 16 24)
    if length > usizeSub block_size 88 then .err (.rdfs .InvalidEncodedDataBlockLength)
    else if block_size < 88 then .panicked
    else
      .ok { block_number := fromLE (byteSlice data 0 8),
            timestamp := fromLE (byteSlice data 8 16),
            data := byteSlice data 24 (data.length - 64),
            signature := byteSlice data (block_size - 64) block_size }

/-- Slicing a whole list. -/
theorem byteSlice_all (l : List Nat) (i j : Nat) (hi : i = 0) (hj : j = l.length) :
    byteSlice l i j = l := by
  subst hi; subst hj
  simp only [byteSlice, List.drop_zero, Nat.sub_zero]
  exact List.take_of_length_le (Nat.le_refl _)

/-- Slicing the trailing block of a concatenation. -/
theorem byteSlice_append_last (p q : List Nat) (i j : Nat)
    (hi : i = p.length) (hj : j = p.length + q.length) :
    byteSlice (p ++ q) i j = q := by
  subst hi; subst hj
  simp only [byteSlice, List.drop_left]
  rw [Nat.add_sub_cancel_left]
  exact List.take_of_length_le (Nat.le_refl _)

/-- A slice that ends inside the left part of a concatenation ignores the
right part. -/
theorem byteSlice_append_left (A s : List Nat) (i j : Nat) (hj : j ≤ A.length) :
    byteSlice (A ++ s) i j = byteSlice A i j := by
  rcases Nat.le_total i A.length with hi | hi
  · have hdrop : (A ++ s).drop i = A.drop i ++ s := List.drop_append_of_le_length hi
    simp only [byteSlice, hdrop]
    rw [List.take_append_of_le_length]
    rw [List.length_drop]
    omega
  · have hji : j - i = 0 := by omega
    simp [byteSlice, hji]

/-- Claim C6: for `block_size ≥ 88` and a payload within capacity,
`to_bytes` produces exactly `block_size` bytes and `from_bytes` recovers the
block number, timestamp and signature, returning a payload of exactly
`block_size - 88` bytes equal to the original data followed by zeros. -/
theorem data_block_roundtrip (x : DataBlock) (bs : Nat)
    (h88 : 88 ≤ bs) (hbs : bs < M64)
    (hlen : x.data.length ≤ bs - 88)
    (hbn : x.block_number < M64) (hts : x.timestamp < M64)
    (hsig : x.signature.length = 64) :
    (x.to_bytes bs).length = bs
    ∧ ∃ y : DataBlock, DataBlock.from_bytes (x.to_bytes bs) bs = .ok y
        ∧ y.block_number = x.block_number
        ∧ y.timestamp = x.timestamp
        ∧ y.signature = x.signature
        ∧ y.data.length = bs - 88
        ∧ y.data.take x.data.length = x.data
        ∧ y.data.drop x.data.length = List.replicate (bs - 88 - x.data.length) 0 := by
  have l8 : ∀ v : Nat, (leBytes 8 v).length = 8 := fun v => length_leBytes 8 v
  have hM : (256 : Nat) ^ 8 = M64 := by norm_num
  have hencl : (leBytes 8 x.block_number ++ leBytes 8 x.timestamp
      ++ leBytes 8 x.data.length ++ x.data).length = 24 + x.data.length := by
    simp only [List.length_append, l8] <;> omega
  have hB : x.to_bytes bs =
      (leBytes 8 x.block_number ++ leBytes 8 x.timestamp
        ++ leBytes 8 x.data.length ++ x.data
        ++ List.replicate (bs - 64 - (24 + x.data.length)) 0)
      ++ x.signature := by
    unfold DataBlock.to_bytes
    rw [resize_eq_append]
    · rw [hencl]
    · rw [hencl]; omega
  have hBlen : (x.to_bytes bs).length = bs := by
    rw [hB]
    simp only [List.length_append, List.length_replicate, l8, hsig] <;> omega
  have hs0 : byteSlice (x.to_bytes bs) 0 8 = leBytes 8 x.block_number := by
    rw [hB, byteSlice_append_left, byteSlice_append_left, byteSlice_append_left,
      byteSlice_append_left, byteSlice_append_left, byteSlice_all]
    all_goals first
      | rfl
      | omega
      | (simp only [List.length_append, List.length_replicate, l8] <;> omega)
  have hs1 : byteSlice (x.to_bytes bs) 8 16 = leBytes 8 x.timestamp := by
    rw [hB, byteSlice_append_left, byteSlice_append_left, byteSlice_append_left,
      byteSlice_append_left, byteSlice_append_last]
    all_goals first
      | rfl
      | omega
      | (simp only [List.length_append, List.length_replicate, l8] <;> omega)
  have hs2 : byteSlice (x.to_bytes bs) 16 24 = leBytes 8 x.data.length := by
    rw [hB, byteSlice_append_left, byteSlice_append_left, byteSlice_append_left,
      byteSlice_append_last]
    all_goals first
      | rfl
      | omega
      | (simp only [List.length_append, List.length_replicate, l8] <;> omega)
  have hdata : byteSlice (x.to_bytes bs) 24 (bs - 64) =
      x.data ++ List.replicate (bs - 64 - (24 + x.data.length)) 0 := by
    rw [hB, byteSlice_append_left, List.append_assoc, byteSlice_append_last]
    all_goals first
      | rfl
      | omega
      | (simp only [List.length_append, List.length_replicate, l8] <;> omega)
  have hssig : byteSlice (x.to_bytes bs) (bs - 64) bs = x.signature := by
    rw [hB, byteSlice_append_last]
    all_goals first
      | rfl
      | omega
      | (simp only [List.length_append, List.length_replicate, l8, hsig] <;> omega)
  refine ⟨hBlen, ?_⟩
  simp only [DataBlock.from_bytes]
  rw [if_neg (show ¬ (x.to_bytes bs).length ≠ bs by rw [hBlen]; exact fun hc => hc rfl),
    if_neg (show ¬ bs < 24 by omega)]
  have hdl : fromLE (byteSlice (x.to_bytes bs) 16 24) = x.data.length := by
    rw [hs2]
    exact fromLE_leBytes 8 x.data.length (by rw [hM]; omega)
  have hsub88 : usizeSub bs 88 = bs - 88 := by
    show (bs + 18446744073709551616 - 88) % 18446744073709551616 = bs - 88
    have hbs2 : bs < 18446744073709551616 := hbs
    omega
  have hc1 : ¬ fromLE (byteSlice (x.to_bytes bs) 16 24) > usizeSub bs 88 := by
    rw [hdl, hsub88]; omega
  rw [if_neg hc1, if_neg (show ¬ bs < 88 by omega), hBlen, hs0, hs1, hdata, hssig]
  refine ⟨{ block_number := fromLE (leBytes 8 x.block_number),
            timestamp := fromLE (leBytes 8 x.timestamp),
            data := x.data ++ List.replicate (bs - 64 - (24 + x.data.length)) 0,
            signature := x.signature }, rfl, ?_, ?_, rfl, ?_, ?_, ?_⟩
  · show fromLE (leBytes 8 x.block_number) = x.block_number
    exact fromLE_leBytes 8 x.block_number (by rw [hM]; omega)
  · show fromLE (leBytes 8 x.timestamp) = x.timestamp
    exact fromLE_leBytes 8 x.timestamp (by rw [hM]; omega)
  · show (x.data ++ List.replicate (bs - 64 - (24 + x.data.length)) 0).length = bs - 88
    simp only [List.length_append, List.length_replicate]
    omega
  · show (x.data ++ List.replicate (bs - 64 - (24 + x.data.length)) 0).take x.data.length
      = x.data
    exact List.take_left _ _
  · show (x.data ++ List.replicate (bs - 64 - (24 + x.data.length)) 0).drop x.data.length
      = List.replicate (bs - 88 - x.data.length) 0
    have harith : bs - 64 - (24 + x.data.length) = bs - 88 - x.data.length := by omega
    rw [List.drop_left, harith]

/-- Witness for C6: `block_size = 96`, a three-byte payload. -/
theorem data_block_roundtrip_witness :
    ((DataBlock.mk 5 6 [1, 2, 3] (List.replicate 64 9)).to_bytes 96).length = 96
    ∧ ∃ y : DataBlock,
        DataBlock.from_bytes
            ((DataBlock.mk 5 6 [1, 2, 3] (List.replicate 64 9)).to_bytes 96) 96 =
          .ok y
        ∧ y.block_number = 5 ∧ y.timestamp = 6
        ∧ y.signature = List.replicate 64 9
        ∧ y.data.length = 8
        ∧ y.data.take 3 = [1, 2, 3]
        ∧ y.data.drop 3 = List.replicate 5 0 :=
  data_block_roundtrip (DataBlock.mk 5 6 [1, 2, 3] (List.replicate 64 9)) 96
    (by norm_num) (by norm_num) (by norm_num) (by norm_num) (by norm_num)
    (by norm_num)

/-- The `InodeType` enum (`Dir = 0`, `File = 1`). -/
inductive InodeType where
  | Dir
  | File
  deriving DecidableEq, Repr

/-- `From<u64> for InodeType`: 0 is `Dir`, anything else is `File`. -/
def InodeType.ofU64 (value : Nat) : InodeType :=
  if value = 0 then .Dir else .File

/-- The `DirContent` struct: `(pointer, inode_type)`. -/
structure DirContent where
  pointer : Nat
  inode_type : InodeType
  deriving DecidableEq, Repr

/-- `DirContent::from_bytes` on a 16-byte slice. -/
def DirContent.from_bytes (data : List Nat) : DirContent :=
  { pointer := fromLE (byteSlice data 0 8),
    inode_type := InodeType.ofU64 (fromLE (byteSlice data 8 16)) }

/-- The `ContentName` struct: a `u32` length and 255 `u32` code points. -/
structure ContentName where
  length : Nat
  name : List Nat
  deriving DecidableEq, Repr

/-- `ContentName::from_bytes` on a 1024-byte slice. -/
def ContentName.from_bytes (data : List Nat) : ContentName :=
  { length := fromLE (byteSlice data 0 4),
    name := (List.range 255).map
      (fun i => fromLE (byteSlice data ((i + 1) * 4) ((i + 1) * 4 + 4))) }

/-- The `InodeDir` struct of `inode_block.rs`. -/
structure InodeDir where
  name : ContentName
  created : Nat
  modify : Nat
  size : Nat
  total_blocks : Nat
  content : List DirContent
  linked : Nat
  signature : List Nat
  deriving DecidableEq, Repr

/-- `InodeDir::from_bytes`.  The declared `content_len` is compared against
`block_size - RESERVED_IB` (1136 header bytes) without dividing by
`CONTENT_SIZE`; the 16-byte content reads then run out of the buffer — an
abort — as soon as `1072 + 16·content_len` exceeds `block_size`.  A buffer
shorter than the 1072-byte fixed header aborts at the header slices. -/
def InodeDir.from_bytes (data : List Nat) (block_size : Nat) :
    RunResult InodeDir :=
  if data.length ≠ block_size then .err (.rdfs .InvalidInodeBlockLength)
  else if block_size < 1072 then .panicked
  else
    let length := fromLE (byteSlice data 1064 1072)
    if length > usizeSub block_size 1136 then
      .err (.rdfs .InvalidEncodedInodeBlockLength)
    else if block_size < 1072 + length * 16 then .panicked
    else
      .ok { name := ContentName.from_bytes (byteSlice data 0 1024),
            created := fromLE (byteSlice data 1024 1032),
            modify := fromLE (byteSlice data 1032 1040),
            size := fromLE (byteSlice data 1040 1048),
            total_blocks := fromLE (byteSlice data 1048 1056),
            linked := fromLE (byteSlice data 1056 1064),
            content := (List.range length).map (fun i =>
              DirContent.from_bytes
                (byteSlice data (1072 + i * 16) (1072 + i * 16 + 16))),
            signature := byteSlice data (block_size - 64) block_size }

/-- A 1200-byte inode buffer whose declared `content_len` is 5 — above the
capacity `(1200 - 1136) / 16 = 4` of a 1200-byte block. -/
def inodeOversizedBuf : List Nat :=
  List.replicate 1064 0 ++ (5 :: List.replicate 7 0) ++ List.replicate 128 0

/-- Claim C3, the code evaluated at a failing input: with
`block_size = 1200`, a block-sized buffer declaring `content_len = 5`
(capacity is `(1200 - 1136) / 16 = 4`) is accepted by `InodeDir::from_bytes`
with all five content entries — the guard compares `content_len` against
`block_size - 1136` instead of `(block_size - 1136) / 16`, so no
`InvalidEncodedInodeBlockLength` error is returned. -/
theorem inode_from_bytes_accepts_oversized_content_len :
    (1200 - 1136) / 16 = 4
    ∧ fromLE (byteSlice inodeOversizedBuf 1064 1072) = 5
    ∧ InodeDir.from_bytes inodeOversizedBuf 1200 ≠
        .err (.rdfs .InvalidEncodedInodeBlockLength)
    ∧ InodeDir.from_bytes inodeOversizedBuf 1200 =
        .ok { name := { length := 0, name := List.replicate 255 0 },
              created := 0, modify := 0, size := 0, total_blocks := 0,
              content := List.replicate 5 { pointer := 0, inode_type := .Dir },
              linked := 0, signature := List.replicate 64 0 } := by
  refine ⟨by norm_num, by decide, ?_, by decide⟩
  decide
